import Mathlib

/-!
Verification of the bubbles repository's gesture core.

Shallow embedding of:
* inputHandler.js (src/unnamed/part_001, the settings-based version 2.1.0 whose
  line numbers the claims cite): the stroke-capture state machine
  (handlePointerDown / handlePointerMove / handlePointerUp, Escape keydown);
* settings.js (second document of src/bubble.js): gameSettings with its derived
  fadeTimeMs / multiStrokeGracePeriodMs getters and the settings update;
* main.js: onQuitAction and onSymbolRecognized;
* the P-dollar recognizer, whose source (pdollar.js) is not under src/ and is
  therefore modelled from the spec (section 4.3).

JavaScript numbers are embedded as rationals.  The code compares
Math.sqrt(dx*dx + dy*dy) > MIN_DRAG_DISTANCE; since both sides are nonnegative
this is equivalent to the square-free comparison dx*dx + dy*dy >
MIN_DRAG_DISTANCE * MIN_DRAG_DISTANCE used here, which keeps every definition
executable over the rationals.  Date.now() timestamps are passed to the
handlers as explicit rational arguments.  The environment callbacks
(onSettingsInput, onButtonClickAction) are modelled by the boolean results the
handlers branch on; onPopAction and onSymbolRecognized are modelled as emitted
output events.
-/

/-- A point, as in inputHandler.js: screen coordinates plus the stroke id the
point belongs to.  Every point the capture code creates carries ID 1
(pointer-down and pointer-move both construct Point(x, y, 1)); the tap marker
pushed to visualStrokes uses ID 0. -/
structure Point where
  X : ℚ
  Y : ℚ
  ID : ℤ
deriving DecidableEq, Repr

/-- An entry of visualStrokes: the finished points, the Date.now() at push
time, and the isTap flag of tap feedback markers. -/
structure VisualStroke where
  points : List Point
  startTime : ℚ
  isTap : Bool
deriving DecidableEq, Repr

/-- The module-global state of inputHandler.js. -/
structure InputState where
  isDrawing : Bool
  currentStroke : List Point
  visualStrokes : List VisualStroke
  previousStroke : Option (List Point)
  previousStrokeEndTime : ℚ
  currentStrokeStartTime : ℚ
  isDraggingSlider : Bool
deriving DecidableEq, Repr

/-- The initial values of the module globals of inputHandler.js. -/
def initState : InputState :=
  { isDrawing := false
    currentStroke := []
    visualStrokes := []
    previousStroke := none
    previousStrokeEndTime := 0
    currentStrokeStartTime := 0
    isDraggingSlider := false }

/-- Observable calls the input handler makes at the gesture interface:
submit is a call of onSymbolRecognized with a point list, pop a call of
onPopAction with the up-event coordinates. -/
inductive OutEvent where
  | submit (points : List Point)
  | pop (x y : ℚ)
deriving DecidableEq, Repr

/-- MIN_DRAG_DISTANCE = 5 in inputHandler.js. -/
def MIN_DRAG_DISTANCE : ℚ := 5

/-- Squared Euclidean distance; the code compares the square root of this
against MIN_DRAG_DISTANCE, which is equivalent to comparing this against
MIN_DRAG_DISTANCE squared. -/
def sqDist (a b : Point) : ℚ :=
  (b.X - a.X) * (b.X - a.X) + (b.Y - a.Y) * (b.Y - a.Y)

/-- handlePointerDown.  settingsHandled and buttonHandled are the boolean
results of the onSettingsInput and onButtonClickAction callbacks the code
branches on (priority 1 and 2); now is Date.now() at the event.  When neither
callback consumes the event a new one-point stroke buffer is started with
stroke id 1. -/
def handlePointerDown (settingsHandled buttonHandled : Bool) (x y now : ℚ)
    (s : InputState) : InputState :=
  if settingsHandled then { s with isDraggingSlider := true }
  else if buttonHandled then s
  else
    { s with currentStrokeStartTime := now
             currentStroke := [⟨x, y, 1⟩]
             isDrawing := true }

/-- handlePointerMove.  While a slider drag is active the event goes to the
settings callback; otherwise, if drawing, the point is appended (with stroke
id 1) only when its distance from the last buffered point exceeds
MIN_DRAG_DISTANCE.  Reading the last point of an empty buffer would throw in
JavaScript, hence the Option result; that case is unreachable because
isDrawing is only set together with a one-point buffer. -/
def handlePointerMove (x y : ℚ) (s : InputState) : Option InputState :=
  if s.isDraggingSlider then some s
  else if s.isDrawing = false then some s
  else
    match s.currentStroke.getLast? with
    | none => none
    | some lastPoint =>
        if MIN_DRAG_DISTANCE * MIN_DRAG_DISTANCE < sqDist lastPoint ⟨x, y, 1⟩ then
          some { s with currentStroke := s.currentStroke ++ [⟨x, y, 1⟩] }
        else some s

/-- The stroke-vs-tap classification of handlePointerUp: a drawing gesture is
a stroke when the buffer has more than one point and the straight-line
distance from its first to its last point exceeds MIN_DRAG_DISTANCE. -/
def isStrokeGesture (stroke : List Point) : Bool :=
  match stroke.head?, stroke.getLast? with
  | some fp, some lp =>
      decide (1 < stroke.length) &&
      decide (MIN_DRAG_DISTANCE * MIN_DRAG_DISTANCE < sqDist fp lp)
  | _, _ => false

/-- handlePointerUp with grace the current multiStrokeGracePeriodMs, (x, y)
the canvas coordinates of the up event and now Date.now().  Faithful to the
source: a pending slider drag is finished first; an up with no drawing in
progress returns; otherwise the first/last points of the buffer are
dereferenced (a TypeError in JavaScript when the buffer is empty, hence none),
the gesture is classified, a stroke is submitted either combined with the
pending previous stroke (when one exists and currentStrokeStartTime -
previousStrokeEndTime is at most the grace period) or alone (storing it as the
new previous stroke with previousStrokeEndTime = now), and a tap invokes
onPopAction with the up coordinates and clears the pending previous stroke. -/
def handlePointerUp (grace x y now : ℚ) (s : InputState) :
    Option (InputState × List OutEvent) :=
  if s.isDraggingSlider then
    some ({ s with isDraggingSlider := false }, [])
  else if s.isDrawing = false then
    some (s, [])
  else match s.currentStroke.head?, s.currentStroke.getLast? with
  | none, _ => none
  | _, none => none
  | some _, some _ =>
  if isStrokeGesture s.currentStroke then
    let withVisual := s.visualStrokes ++ [⟨s.currentStroke, now, false⟩]
    match s.previousStroke with
    | some prev =>
        if s.currentStrokeStartTime - s.previousStrokeEndTime ≤ grace then
          some ({ s with isDrawing := false
                         visualStrokes := withVisual
                         previousStroke := none
                         previousStrokeEndTime := 0
                         currentStroke := [] },
                [OutEvent.submit (prev ++ s.currentStroke)])
        else
          some ({ s with isDrawing := false
                         visualStrokes := withVisual
                         previousStroke := some s.currentStroke
                         previousStrokeEndTime := now
                         currentStroke := [] },
                [OutEvent.submit s.currentStroke])
    | none =>
        some ({ s with isDrawing := false
                       visualStrokes := withVisual
                       previousStroke := some s.currentStroke
                       previousStrokeEndTime := now
                       currentStroke := [] },
              [OutEvent.submit s.currentStroke])
  else
    some ({ s with isDrawing := false
                   visualStrokes := s.visualStrokes ++ [⟨[⟨x, y, 0⟩], now, true⟩]
                   previousStroke := none
                   previousStrokeEndTime := 0
                   currentStroke := [] },
          [OutEvent.pop x y])

/-- Pointer events driving the capture machine; down carries the boolean
results of the settings and button callbacks, down and up carry Date.now(). -/
inductive InEvent where
  | down (settingsHandled buttonHandled : Bool) (x y now : ℚ)
  | move (x y : ℚ)
  | up (x y now : ℚ)
deriving DecidableEq, Repr

/-- One event step of the capture machine. -/
def step (grace : ℚ) (s : InputState) (e : InEvent) :
    Option (InputState × List OutEvent) :=
  match e with
  | InEvent.down sh bh x y now => some (handlePointerDown sh bh x y now s, [])
  | InEvent.move x y => (handlePointerMove x y s).map (fun s1 => (s1, []))
  | InEvent.up x y now => handlePointerUp grace x y now s

/-- Run a list of pointer events, collecting the emitted gesture-interface
calls in order. -/
def run (grace : ℚ) (s : InputState) (es : List InEvent) :
    Option (InputState × List OutEvent) :=
  match es with
  | [] => some (s, [])
  | e :: rest => do
      let (s1, evs1) ← step grace s e
      let (s2, evs2) ← run grace s1 rest
      pure (s2, evs1 ++ evs2)

/-- Events emitted by an up-handler result. -/
def upEvents (r : Option (InputState × List OutEvent)) : Option (List OutEvent) :=
  r.map (fun p => p.2)

/-- State component of an up-handler result. -/
def upState (r : Option (InputState × List OutEvent)) : Option InputState :=
  r.map (fun p => p.1)

/-- Number of recognition submissions in an event list. -/
def submitCount (evs : List OutEvent) : Nat :=
  (evs.filter (fun e => match e with
    | OutEvent.submit _ => true
    | OutEvent.pop _ _ => false)).length

/-- All stroke ids held in the capture state are 1: true of the initial state
and preserved by every handler, since pointer-down and pointer-move create
every captured point with id 1. -/
def allIdsOne (s : InputState) : Prop :=
  (∀ p ∈ s.currentStroke, p.ID = 1) ∧
  (∀ l, s.previousStroke = some l → ∀ p ∈ l, p.ID = 1)

/-- The game states of main.js. -/
inductive GameState where
  | menu
  | about
  | settings
  | game
  | pauseConfirm
  | endGame
deriving DecidableEq, Repr

/-- onQuitAction of main.js: remaps the game state (GAME pauses, SETTINGS and
ABOUT return to the menu, PAUSE_CONFIRM resumes); it touches nothing else. -/
def onQuitAction : GameState → GameState
  | GameState.game => GameState.pauseConfirm
  | GameState.settings => GameState.menu
  | GameState.about => GameState.menu
  | GameState.pauseConfirm => GameState.game
  | g => g

/-- The keydown listener installed by initializeInput: on Escape it calls
onQuitAction and nothing else; the capture state is not read or written and no
gesture-interface call is made. -/
def handleKeyDown (isEscape : Bool) (s : InputState) (g : GameState) :
    InputState × GameState × List OutEvent :=
  if isEscape then (s, onQuitAction g, []) else (s, g, [])

/-- gameSettings of settings.js: the stored fields (the derived getters are
the functions below). -/
structure GameSettings where
  difficultyMultiplier : ℚ
  specialBubbleFrequency : ℚ
  babyMode : Bool
  gameTimeMinutes : ℤ
  gestureTimingSeconds : ℚ
deriving DecidableEq, Repr

/-- The default gameSettings object. -/
def defaultSettings : GameSettings :=
  { difficultyMultiplier := 1
    specialBubbleFrequency := 3 / 10
    babyMode := false
    gameTimeMinutes := 2
    gestureTimingSeconds := 2 }

/-- The fadeTimeMs getter: gestureTimingSeconds converted to milliseconds. -/
def fadeTimeMs (s : GameSettings) : ℚ :=
  s.gestureTimingSeconds * 1000

/-- The multiStrokeGracePeriodMs getter: gestureTimingSeconds converted to
milliseconds (the source comment says same as fade time). -/
def multiStrokeGracePeriodMs (s : GameSettings) : ℚ :=
  s.gestureTimingSeconds * 1000

/-- SettingsManager.updateSettings: writes the control values into
gameSettings.  There is no control for fade time or grace period separately;
both derive from the single gestureTimingSeconds value. -/
def updateSettings (s : GameSettings) (babyMode : Bool)
    (difficulty specialFreq gestureTiming : ℚ) (gameTime : ℤ) : GameSettings :=
  { s with babyMode := babyMode
           difficultyMultiplier := difficulty
           specialBubbleFrequency := specialFreq
           gestureTimingSeconds := gestureTiming
           gameTimeMinutes := gameTime }

/-- A recognition result as returned by the recognizer and consumed by
main.js (result.Name, result.Score). -/
structure RecoResult where
  Name : String
  Score : ℚ
deriving DecidableEq, Repr

/-- What one submission produced inside main.js's onSymbolRecognized:
attempted holds the recognizer's result when a recognition attempt was made
(none when the handler returned before recognizing), accepted whether the
score reached the threshold so the matching bubbles were cleared. -/
structure SubmissionOutcome where
  attempted : Option RecoResult
  accepted : Bool
deriving DecidableEq, Repr

/-- recognitionThreshold = 0.4 in main.js. -/
def recognitionThreshold : ℚ := 2 / 5

/-- onSymbolRecognized of main.js, parametric in the recognizer's Recognize
function: when the current state is not GAME it returns at once without
recognizing; otherwise it recognizes the submitted points and accepts exactly
when the score reaches recognitionThreshold. -/
def onSymbolRecognized (recognize : List Point → RecoResult) (g : GameState)
    (points : List Point) : SubmissionOutcome :=
  if g ≠ GameState.game then ⟨none, false⟩
  else
    let result := recognize points
    ⟨some result, decide (recognitionThreshold ≤ result.Score)⟩

/-- A stored gesture template: a name and its normalized points. -/
structure Template where
  name : String
  points : List Point
deriving DecidableEq, Repr

/-- Clamp a score to the unit interval, as spec section 4.3 step 4 requires. -/
def clampScore (q : ℚ) : ℚ :=
  max 0 (min 1 q)

/-- Modelled from the spec: the P-dollar recognizer used by main.js
(new PDollarRecognizer, recognizer.Recognize) ships as pdollar.js, which is
not under src/; only its caller is.  Following spec section 4.3, recognize is
modelled parametrically in the per-template rotation-search distance dist
(the spec itself only constrains it abstractly: the minimum achievable
pathDistance over rotations of the normalized candidate within the search
range) and in halfDiagonal (the reference-box half-diagonal): each stored
template is scored by dist, the template with the globally minimum distance
wins with ties resolved to the first in store order, and the winning distance
d becomes the score clampScore (1 - d / halfDiagonal); an empty store yields
the sentinel result with score 0. -/
def recognizeSpec (dist : List Point → Template → ℚ) (halfDiagonal : ℚ)
    (templates : List Template) (candidate : List Point) : RecoResult :=
  match templates with
  | [] => ⟨"No match", 0⟩
  | t :: ts =>
      let best := ts.foldl
        (fun acc u => if dist candidate u < acc.2 then (u, dist candidate u) else acc)
        (t, dist candidate t)
      ⟨best.1.name, clampScore (1 - best.2 / halfDiagonal)⟩

/-- Concrete two-stroke capture trace (grace period 2000 ms): stroke 1 is
drawn from (0,0) to (10,0) between t = 0 and t = 100, stroke 2 from (0,20) to
(10,20) between t = 500 and t = 600, a 400 ms gap well inside the grace
window. -/
def twoStrokeTrace : List InEvent :=
  [InEvent.down false false 0 0 0,
   InEvent.move 10 0,
   InEvent.up 10 0 100,
   InEvent.down false false 0 20 500,
   InEvent.move 10 20,
   InEvent.up 10 20 600]

/-- A capture state holding a pending previous stroke that ended at t = 0 and
a current non-tap stroke whose pointer-down happened at t = 1500. -/
def staleUpState : InputState :=
  { isDrawing := true
    currentStroke := [⟨0, 20, 1⟩, ⟨20, 20, 1⟩]
    visualStrokes := []
    previousStroke := some [⟨0, 0, 1⟩, ⟨10, 0, 1⟩]
    previousStrokeEndTime := 0
    currentStrokeStartTime := 1500
    isDraggingSlider := false }

/-- A capture state in the middle of a drawing gesture with a pending
previous stroke, used to exercise the Escape handler. -/
def midGestureState : InputState :=
  { isDrawing := true
    currentStroke := [⟨3, 4, 1⟩, ⟨30, 4, 1⟩]
    visualStrokes := []
    previousStroke := some [⟨0, 0, 1⟩, ⟨10, 0, 1⟩]
    previousStrokeEndTime := 100
    currentStrokeStartTime := 200
    isDraggingSlider := false }

/-- A recognizer stub that always reports a perfect circle, used to exercise
onSymbolRecognized on concrete inputs. -/
def constCircleRecognizer : List Point → RecoResult :=
  fun _ => ⟨"circle", 1⟩

/-- A capture state about to complete stroke 2 of a multi-stroke gesture:
stroke 1 ended at t = 100, stroke 2 started at t = 500. -/
def secondStrokeState : InputState :=
  { isDrawing := true
    currentStroke := [⟨0, 20, 1⟩, ⟨10, 20, 1⟩]
    visualStrokes := []
    previousStroke := some [⟨0, 0, 1⟩, ⟨10, 0, 1⟩]
    previousStrokeEndTime := 100
    currentStrokeStartTime := 500
    isDraggingSlider := false }

/-- A capture state about to complete a first non-tap stroke with no pending
previous stroke. -/
def firstStrokeState : InputState :=
  { isDrawing := true
    currentStroke := [⟨0, 0, 1⟩, ⟨10, 0, 1⟩]
    visualStrokes := []
    previousStroke := none
    previousStrokeEndTime := 0
    currentStrokeStartTime := 0
    isDraggingSlider := false }

/-- A capture state right after a pointer-down with no movement: the buffer
holds the single down point, as in a tap at (50, 50). -/
def tapDownState : InputState :=
  { isDrawing := true
    currentStroke := [⟨50, 50, 1⟩]
    visualStrokes := []
    previousStroke := some [⟨0, 0, 1⟩, ⟨10, 0, 1⟩]
    previousStrokeEndTime := 40
    currentStrokeStartTime := 45
    isDraggingSlider := false }

/-- A capture state with no drawing in progress but stale buffers, as after a
pointer-down consumed by a UI button. -/
def idleUpState : InputState :=
  { isDrawing := false
    currentStroke := []
    visualStrokes := []
    previousStroke := some [⟨0, 0, 1⟩]
    previousStrokeEndTime := 7
    currentStrokeStartTime := 9
    isDraggingSlider := false }

/-- A constant per-template distance, used to exercise the recognizer model
on concrete inputs. -/
def constDist : List Point → Template → ℚ :=
  fun _ _ => 3

/-! ### Helper lemmas about the capture machine -/

lemma ne_nil_of_isStrokeGesture {l : List Point} (h : isStrokeGesture l = true) :
    l ≠ [] := by
  intro hn
  rw [hn] at h
  simp [isStrokeGesture] at h

lemma isStrokeGesture_true_iff (l : List Point) (h : l ≠ []) :
    isStrokeGesture l = true ↔
      1 < l.length ∧
        MIN_DRAG_DISTANCE * MIN_DRAG_DISTANCE < sqDist (l.head h) (l.getLast h) := by
  simp [isStrokeGesture, List.head?_eq_head h, List.getLast?_eq_getLast l h]

lemma upReduce (grace x y now : ℚ) (s : InputState)
    (hsl : s.isDraggingSlider = false) (hdr : s.isDrawing = true)
    (hne : s.currentStroke ≠ []) :
    handlePointerUp grace x y now s =
      if isStrokeGesture s.currentStroke then
        match s.previousStroke with
        | some prev =>
            if s.currentStrokeStartTime - s.previousStrokeEndTime ≤ grace then
              some ({ s with isDrawing := false
                             visualStrokes := s.visualStrokes ++ [⟨s.currentStroke, now, false⟩]
                             previousStroke := none
                             previousStrokeEndTime := 0
                             currentStroke := [] },
                    [OutEvent.submit (prev ++ s.currentStroke)])
            else
              some ({ s with isDrawing := false
                             visualStrokes := s.visualStrokes ++ [⟨s.currentStroke, now, false⟩]
                             previousStroke := some s.currentStroke
                             previousStrokeEndTime := now
                             currentStroke := [] },
                    [OutEvent.submit s.currentStroke])
        | none =>
            some ({ s with isDrawing := false
                           visualStrokes := s.visualStrokes ++ [⟨s.currentStroke, now, false⟩]
                           previousStroke := some s.currentStroke
                           previousStrokeEndTime := now
                           currentStroke := [] },
                  [OutEvent.submit s.currentStroke])
      else
        some ({ s with isDrawing := false
                       visualStrokes := s.visualStrokes ++ [⟨[⟨x, y, 0⟩], now, true⟩]
                       previousStroke := none
                       previousStrokeEndTime := 0
                       currentStroke := [] },
              [OutEvent.pop x y]) := by
  rw [handlePointerUp]
  rw [List.head?_eq_head hne, List.getLast?_eq_getLast _ hne]
  simp [hsl, hdr]

lemma upReduce_combined (grace x y now : ℚ) (s : InputState)
    (hsl : s.isDraggingSlider = false) (hdr : s.isDrawing = true)
    (hg : isStrokeGesture s.currentStroke = true)
    (prev : List Point) (hp : s.previousStroke = some prev)
    (hgr : s.currentStrokeStartTime - s.previousStrokeEndTime ≤ grace) :
    handlePointerUp grace x y now s =
      some ({ s with isDrawing := false
                     visualStrokes := s.visualStrokes ++ [⟨s.currentStroke, now, false⟩]
                     previousStroke := none
                     previousStrokeEndTime := 0
                     currentStroke := [] },
            [OutEvent.submit (prev ++ s.currentStroke)]) := by
  rw [upReduce grace x y now s hsl hdr (ne_nil_of_isStrokeGesture hg), hg, hp]
  simp [hgr]

lemma upReduce_single_of_some (grace x y now : ℚ) (s : InputState)
    (hsl : s.isDraggingSlider = false) (hdr : s.isDrawing = true)
    (hg : isStrokeGesture s.currentStroke = true)
    (prev : List Point) (hp : s.previousStroke = some prev)
    (hgr : ¬ s.currentStrokeStartTime - s.previousStrokeEndTime ≤ grace) :
    handlePointerUp grace x y now s =
      some ({ s with isDrawing := false
                     visualStrokes := s.visualStrokes ++ [⟨s.currentStroke, now, false⟩]
                     previousStroke := some s.currentStroke
                     previousStrokeEndTime := now
                     currentStroke := [] },
            [OutEvent.submit s.currentStroke]) := by
  rw [upReduce grace x y now s hsl hdr (ne_nil_of_isStrokeGesture hg), hg, hp]
  simp [hgr]

lemma upReduce_single_of_none (grace x y now : ℚ) (s : InputState)
    (hsl : s.isDraggingSlider = false) (hdr : s.isDrawing = true)
    (hg : isStrokeGesture s.currentStroke = true)
    (hp : s.previousStroke = none) :
    handlePointerUp grace x y now s =
      some ({ s with isDrawing := false
                     visualStrokes := s.visualStrokes ++ [⟨s.currentStroke, now, false⟩]
                     previousStroke := some s.currentStroke
                     previousStrokeEndTime := now
                     currentStroke := [] },
            [OutEvent.submit s.currentStroke]) := by
  rw [upReduce grace x y now s hsl hdr (ne_nil_of_isStrokeGesture hg), hg, hp]
  simp

lemma upReduce_tap (grace x y now : ℚ) (s : InputState)
    (hsl : s.isDraggingSlider = false) (hdr : s.isDrawing = true)
    (hne : s.currentStroke ≠ [])
    (hg : isStrokeGesture s.currentStroke = false) :
    handlePointerUp grace x y now s =
      some ({ s with isDrawing := false
                     visualStrokes := s.visualStrokes ++ [⟨[⟨x, y, 0⟩], now, true⟩]
                     previousStroke := none
                     previousStrokeEndTime := 0
                     currentStroke := [] },
            [OutEvent.pop x y]) := by
  rw [upReduce grace x y now s hsl hdr hne, hg]
  simp

lemma step_allIdsOne (grace : ℚ) (s : InputState) (e : InEvent)
    (s2 : InputState) (evs : List OutEvent) (hids : allIdsOne s)
    (hstep : step grace s e = some (s2, evs)) :
    allIdsOne s2 ∧ ∀ pts, OutEvent.submit pts ∈ evs → ∀ p ∈ pts, p.ID = 1 := by
  obtain ⟨hcur, hprev⟩ := hids
  cases e with
  | down sh bh x y now =>
      simp only [step, Option.some_inj, Prod.mk.injEq] at hstep
      obtain ⟨hs2, hevs⟩ := hstep
      subst hs2
      subst hevs
      refine ⟨?_, by simp⟩
      rw [handlePointerDown]
      split
      · exact ⟨hcur, hprev⟩
      · split
        · exact ⟨hcur, hprev⟩
        · refine ⟨by simp, hprev⟩
  | move x y =>
      simp only [step] at hstep
      cases hm : handlePointerMove x y s with
      | none => rw [hm] at hstep; simp at hstep
      | some s1 =>
          rw [hm] at hstep
          simp at hstep
          obtain ⟨hs2, hevs⟩ := hstep
          subst hs2
          subst hevs
          refine ⟨?_, by simp⟩
          rw [handlePointerMove] at hm
          split at hm
          · cases hm; exact ⟨hcur, hprev⟩
          · split at hm
            · cases hm; exact ⟨hcur, hprev⟩
            · split at hm
              · cases hm
              · split at hm
                · cases hm
                  refine ⟨?_, hprev⟩
                  intro p hp
                  rcases List.mem_append.mp hp with h | h
                  · exact hcur p h
                  · simp at h; rw [h]
                · cases hm; exact ⟨hcur, hprev⟩
  | up x y now =>
      simp only [step] at hstep
      by_cases hsl : s.isDraggingSlider = true
      · rw [handlePointerUp] at hstep
        simp only [hsl, if_true, Option.some_inj, Prod.mk.injEq] at hstep
        obtain ⟨hs2, hevs⟩ := hstep
        subst hs2; subst hevs
        exact ⟨⟨hcur, hprev⟩, by simp⟩
      · simp only [Bool.not_eq_true] at hsl
        by_cases hdr : s.isDrawing = true
        · cases hcs : s.currentStroke with
          | nil =>
              rw [handlePointerUp] at hstep
              simp [hsl, hdr, hcs] at hstep
          | cons a l =>
              have hne : s.currentStroke ≠ [] := by simp [hcs]
              by_cases hg : isStrokeGesture s.currentStroke = true
              · cases hp : s.previousStroke with
                | some prev =>
                    by_cases hgr : s.currentStrokeStartTime - s.previousStrokeEndTime ≤ grace
                    · rw [upReduce_combined grace x y now s hsl hdr hg prev hp hgr] at hstep
                      simp only [Option.some_inj, Prod.mk.injEq] at hstep
                      obtain ⟨hs2, hevs⟩ := hstep
                      subst hs2; subst hevs
                      refine ⟨⟨by simp, by simp⟩, ?_⟩
                      intro pts hpts p hpmem
                      simp only [List.mem_singleton, OutEvent.submit.injEq] at hpts
                      subst hpts
                      rcases List.mem_append.mp hpmem with h | h
                      · exact hprev prev hp p h
                      · exact hcur p h
                    · rw [upReduce_single_of_some grace x y now s hsl hdr hg prev hp hgr] at hstep
                      simp only [Option.some_inj, Prod.mk.injEq] at hstep
                      obtain ⟨hs2, hevs⟩ := hstep
                      subst hs2; subst hevs
                      refine ⟨⟨by simp, ?_⟩, ?_⟩
                      · intro l2 hl2
                        simp only [Option.some_inj] at hl2
                        subst hl2
                        exact hcur
                      · intro pts hpts p hpmem
                        simp only [List.mem_singleton, OutEvent.submit.injEq] at hpts
                        subst hpts
                        exact hcur p hpmem
                | none =>
                    rw [upReduce_single_of_none grace x y now s hsl hdr hg hp] at hstep
                    simp only [Option.some_inj, Prod.mk.injEq] at hstep
                    obtain ⟨hs2, hevs⟩ := hstep
                    subst hs2; subst hevs
                    refine ⟨⟨by simp, ?_⟩, ?_⟩
                    · intro l2 hl2
                      simp only [Option.some_inj] at hl2
                      subst hl2
                      exact hcur
                    · intro pts hpts p hpmem
                      simp only [List.mem_singleton, OutEvent.submit.injEq] at hpts
                      subst hpts
                      exact hcur p hpmem
              · simp only [Bool.not_eq_true] at hg
                rw [upReduce_tap grace x y now s hsl hdr hne hg] at hstep
                simp only [Option.some_inj, Prod.mk.injEq] at hstep
                obtain ⟨hs2, hevs⟩ := hstep
                subst hs2; subst hevs
                exact ⟨⟨by simp, by simp⟩, by simp⟩
        · simp only [Bool.not_eq_true] at hdr
          rw [handlePointerUp] at hstep
          simp only [hsl, hdr, Bool.false_eq_true, if_false, if_true, Option.some_inj,
            Prod.mk.injEq] at hstep
          obtain ⟨hs2, hevs⟩ := hstep
          subst hs2; subst hevs
          exact ⟨⟨hcur, hprev⟩, by simp⟩

/-! ### Helper lemmas about the recognizer model -/

lemma clampScore_nonneg (q : ℚ) : 0 ≤ clampScore q := le_max_left 0 _

lemma clampScore_le_one (q : ℚ) : clampScore q ≤ 1 :=
  max_le (by norm_num) (min_le_left 1 q)

lemma foldlMin_spec (f : Template → ℚ) :
    ∀ (l : List Template) (b : Template × ℚ), b.2 = f b.1 →
      (((l.foldl (fun acc u => if f u < acc.2 then (u, f u) else acc) b).1 = b.1 ∨
        (l.foldl (fun acc u => if f u < acc.2 then (u, f u) else acc) b).1 ∈ l) ∧
      (l.foldl (fun acc u => if f u < acc.2 then (u, f u) else acc) b).2 =
        f (l.foldl (fun acc u => if f u < acc.2 then (u, f u) else acc) b).1 ∧
      (l.foldl (fun acc u => if f u < acc.2 then (u, f u) else acc) b).2 ≤ b.2 ∧
      ∀ u ∈ l, (l.foldl (fun acc u => if f u < acc.2 then (u, f u) else acc) b).2 ≤ f u) := by
  intro l
  induction l with
  | nil => intro b hb; simp [hb]
  | cons u l ih =>
      intro b hb
      simp only [List.foldl_cons]
      by_cases hc : f u < b.2
      · obtain ⟨hmem, hval, hle, hall⟩ := ih (u, f u) rfl
        simp only [if_pos hc]
        refine ⟨?_, hval, ?_, ?_⟩
        · rcases hmem with h | h
          · exact Or.inr (h ▸ List.mem_cons_self u l)
          · exact Or.inr (List.mem_cons_of_mem u h)
        · exact hle.trans hc.le
        · intro v hv
          rcases List.mem_cons.mp hv with rfl | hv2
          · exact hle
          · exact hall v hv2
      · obtain ⟨hmem, hval, hle, hall⟩ := ih b hb
        simp only [if_neg hc]
        refine ⟨?_, hval, hle, ?_⟩
        · rcases hmem with h | h
          · exact Or.inl h
          · exact Or.inr (List.mem_cons_of_mem u h)
        · intro v hv
          rcases List.mem_cons.mp hv with rfl | hv2
          · exact hle.trans (not_lt.mp hc)
          · exact hall v hv2

/-! ### Claim theorems -/

/-- C1 (corrected): in a multi-stroke completion the submitted point sequence
is exactly previousStroke ++ currentStroke, with each point carrying the
stroke id it was captured with; since capture creates every point with stroke
id 1 (an invariant of the machine, established at the initial state and
preserved by every step, which also forces every submitted point to carry
id 1), the second stroke's points carry id 1, not id 2 as the claim states. -/
theorem C1_multi_stroke_concat_ids (grace x y now : ℚ) (s : InputState)
    (hsl : s.isDraggingSlider = false) (hdr : s.isDrawing = true)
    (hstroke : isStrokeGesture s.currentStroke = true)
    (prev : List Point) (hprev : s.previousStroke = some prev)
    (hgrace : s.currentStrokeStartTime - s.previousStrokeEndTime ≤ grace)
    (hids : allIdsOne s) :
    upEvents (handlePointerUp grace x y now s) =
      some [OutEvent.submit (prev ++ s.currentStroke)] ∧
    (∀ p ∈ prev ++ s.currentStroke, p.ID = 1) ∧
    allIdsOne initState ∧
    (∀ (grace2 : ℚ) (t t2 : InputState) (e : InEvent) (evs : List OutEvent),
      allIdsOne t → step grace2 t e = some (t2, evs) →
      allIdsOne t2 ∧ ∀ pts, OutEvent.submit pts ∈ evs → ∀ p ∈ pts, p.ID = 1) := by
  refine ⟨?_, ?_, ?_, ?_⟩
  · rw [upEvents, upReduce_combined grace x y now s hsl hdr hstroke prev hprev hgrace]
    rfl
  · intro p hp
    rcases List.mem_append.mp hp with h | h
    · exact hids.2 prev hprev p h
    · exact hids.1 p h
  · exact ⟨by simp [initState], by simp [initState]⟩
  · exact fun grace2 t t2 e evs h1 h2 => step_allIdsOne grace2 t e t2 evs h1 h2

/-- Witness for C1: the combined submission of secondStrokeState under a
2000 ms grace period is the concatenation of the two strokes. -/
theorem C1_multi_stroke_concat_ids_witness :
    upEvents (handlePointerUp 2000 10 20 600 secondStrokeState) =
      some [OutEvent.submit [⟨0, 0, 1⟩, ⟨10, 0, 1⟩, ⟨0, 20, 1⟩, ⟨10, 20, 1⟩]] := by
  have h := C1_multi_stroke_concat_ids 2000 10 20 600 secondStrokeState rfl rfl
    (by norm_num [isStrokeGesture, secondStrokeState, sqDist, MIN_DRAG_DISTANCE])
    [⟨0, 0, 1⟩, ⟨10, 0, 1⟩] rfl
    (by norm_num [secondStrokeState])
    (by constructor <;> simp [secondStrokeState, allIdsOne])
  exact h.1

/-- Counterexample for C1 as stated: running the two-stroke trace from the
initial state yields one single-stroke submission followed by the combined
submission, but every submitted point, the second stroke's included, carries
stroke id 1 — the claim requires the second stroke's points to carry id 2. -/
theorem C1_stroke_ids_counterexample :
    (run 2000 initState twoStrokeTrace).map (fun p => p.2) =
      some [OutEvent.submit [⟨0, 0, 1⟩, ⟨10, 0, 1⟩],
            OutEvent.submit [⟨0, 0, 1⟩, ⟨10, 0, 1⟩, ⟨0, 20, 1⟩, ⟨10, 20, 1⟩]] ∧
    ([(⟨0, 20, 1⟩ : Point), ⟨10, 20, 1⟩].map Point.ID = [1, 1] ∧ (1 : ℤ) ≠ 2) := by
  refine ⟨?_, by decide⟩
  norm_num [run, step, handlePointerUp, handlePointerDown, handlePointerMove,
    initState, twoStrokeTrace, isStrokeGesture, sqDist, MIN_DRAG_DISTANCE]

/-- C2 (confirmed): a pointer-up completing a drawing gesture makes exactly
one recognition submission when the gesture is a stroke and none when it is a
tap. -/
theorem C2_one_submission_per_stroke_up (grace x y now : ℚ) (s : InputState)
    (hsl : s.isDraggingSlider = false) (hdr : s.isDrawing = true)
    (hne : s.currentStroke ≠ []) :
    (upEvents (handlePointerUp grace x y now s)).map submitCount =
      some (if isStrokeGesture s.currentStroke then 1 else 0) := by
  rw [upReduce grace x y now s hsl hdr hne]
  by_cases hg : isStrokeGesture s.currentStroke = true
  · cases hp : s.previousStroke with
    | some prev =>
        simp only [hg, if_true, hp]
        split <;> simp [upEvents, submitCount]
    | none => simp [hg, hp, upEvents, submitCount]
  · simp only [Bool.not_eq_true] at hg
    simp [hg, upEvents, submitCount]

/-- Witness for C2: completing the non-tap stroke of firstStrokeState makes
exactly one submission. -/
theorem C2_one_submission_per_stroke_up_witness :
    (upEvents (handlePointerUp 2000 10 0 100 firstStrokeState)).map submitCount =
      some 1 := by
  have h := C2_one_submission_per_stroke_up 2000 10 0 100 firstStrokeState rfl rfl
    (by decide)
  rw [h]
  norm_num [isStrokeGesture, firstStrokeState, sqDist, MIN_DRAG_DISTANCE]

/-- C3 (corrected): a completing non-tap stroke is combined with the pending
previous stroke if and only if one is pending and currentStrokeStartTime -
previousStrokeEndTime ≤ grace (closed interval): the comparison is performed
when the stroke-up event arrives, but the minuend is the timestamp recorded at
the current stroke's pointer-down, not the up-event time the claim names. -/
theorem C3_grace_window_check (grace x y now : ℚ) (s : InputState)
    (hsl : s.isDraggingSlider = false) (hdr : s.isDrawing = true)
    (hne : s.currentStroke ≠ [])
    (hstroke : isStrokeGesture s.currentStroke = true) :
    (∀ prev, s.previousStroke = some prev →
        upEvents (handlePointerUp grace x y now s) =
          some [OutEvent.submit
            (if s.currentStrokeStartTime - s.previousStrokeEndTime ≤ grace
             then prev ++ s.currentStroke else s.currentStroke)]) ∧
    (s.previousStroke = none →
        upEvents (handlePointerUp grace x y now s) =
          some [OutEvent.submit s.currentStroke]) := by
  rw [upReduce grace x y now s hsl hdr hne]
  constructor
  · intro prev hp
    simp only [hstroke, if_true, hp]
    split <;> simp [upEvents]
  · intro hp
    simp [hstroke, hp, upEvents]

/-- Witness for C3 (amended): for secondStrokeState, whose stroke gap of
400 ms is inside the 2000 ms window, the submission is the combined list. -/
theorem C3_grace_window_check_witness :
    upEvents (handlePointerUp 2000 10 20 600 secondStrokeState) =
      some [OutEvent.submit
        (if secondStrokeState.currentStrokeStartTime -
              secondStrokeState.previousStrokeEndTime ≤ 2000
         then [⟨0, 0, 1⟩, ⟨10, 0, 1⟩] ++ secondStrokeState.currentStroke
         else secondStrokeState.currentStroke)] := by
  have h := C3_grace_window_check 2000 10 20 600 secondStrokeState rfl rfl
    (by decide)
    (by norm_num [isStrokeGesture, secondStrokeState, sqDist, MIN_DRAG_DISTANCE])
  exact h.1 [⟨0, 0, 1⟩, ⟨10, 0, 1⟩] rfl

/-- Counterexample for C3 as stated: in staleUpState the up event arrives at
now = 5000 while the previous stroke ended at 0, so with a 2000 ms grace
period the claim (now - previousStrokeEndTime ≤ gracePeriod) forbids
combining; the code combines anyway, because it compares the current stroke's
start time 1500 instead of now. -/
theorem C3_grace_window_counterexample :
    upEvents (handlePointerUp 2000 20 20 5000 staleUpState) =
      some [OutEvent.submit [⟨0, 0, 1⟩, ⟨10, 0, 1⟩, ⟨0, 20, 1⟩, ⟨20, 20, 1⟩]] ∧
    ¬ ((5000 : ℚ) - staleUpState.previousStrokeEndTime ≤ 2000) := by
  constructor
  · norm_num [upEvents, handlePointerUp, staleUpState, isStrokeGesture, sqDist,
      MIN_DRAG_DISTANCE]
  · norm_num [staleUpState]

/-- C4 (corrected): the Escape handler invokes onQuitAction, which only
remaps the game state; it submits nothing to the recognizer and emits no
gesture event, but it also leaves the capture state (drawing flag, stroke
buffer, pending previous stroke) entirely unchanged rather than resetting it
to IDLE and discarding the buffers as the claim states. -/
theorem C4_escape_no_submit_no_reset (isEscape : Bool) (s : InputState)
    (g : GameState) :
    (handleKeyDown isEscape s g).1 = s ∧
    (handleKeyDown isEscape s g).2.2 = [] ∧
    (handleKeyDown true s GameState.game).2.1 = GameState.pauseConfirm := by
  cases isEscape <;> simp [handleKeyDown, onQuitAction]

/-- Counterexample for C4 as stated: pressing Escape in midGestureState
leaves the machine drawing with a non-empty buffer and the pending previous
stroke still present, contradicting the required transition to IDLE with both
discarded (no submission occurs, which is the part of the claim that holds). -/
theorem C4_escape_counterexample :
    (handleKeyDown true midGestureState GameState.game).1.previousStroke =
      some [⟨0, 0, 1⟩, ⟨10, 0, 1⟩] ∧
    (handleKeyDown true midGestureState GameState.game).1.previousStroke ≠ none ∧
    (handleKeyDown true midGestureState GameState.game).1.isDrawing = true ∧
    (handleKeyDown true midGestureState GameState.game).1.currentStroke ≠ [] ∧
    (handleKeyDown true midGestureState GameState.game).2.2 = [] := by
  refine ⟨rfl, ?_, rfl, ?_, rfl⟩ <;> simp [handleKeyDown, midGestureState]

/-- C5 (confirmed): a pointer-up ending a drawing gesture whose buffer holds
at most one point, or whose first-to-last straight-line distance is at most
MIN_DRAG_DISTANCE, is a tap: the only emitted event is the pop callback with
the up-event coordinates, so no recognition submission occurs. -/
theorem C5_tap_classification (grace x y now : ℚ) (s : InputState)
    (hsl : s.isDraggingSlider = false) (hdr : s.isDrawing = true)
    (hne : s.currentStroke ≠ [])
    (htap : s.currentStroke.length ≤ 1 ∨
      sqDist (s.currentStroke.head hne) (s.currentStroke.getLast hne) ≤
        MIN_DRAG_DISTANCE * MIN_DRAG_DISTANCE) :
    upEvents (handlePointerUp grace x y now s) = some [OutEvent.pop x y] := by
  have hg : isStrokeGesture s.currentStroke = false := by
    rw [← Bool.not_eq_true, isStrokeGesture_true_iff _ hne]
    push_neg
    intro hlen
    rcases htap with h1 | h2
    · omega
    · exact h2
  rw [upReduce_tap grace x y now s hsl hdr hne hg]
  rfl

/-- Witness for C5: a pointer-down at (50, 50) immediately followed by a
pointer-up there (a one-point buffer, distance 0) invokes only the tap
callback with the up coordinates. -/
theorem C5_tap_classification_witness :
    upEvents (handlePointerUp 2000 50 50 46 tapDownState) =
      some [OutEvent.pop 50 50] :=
  C5_tap_classification 2000 50 50 46 tapDownState rfl rfl (by decide)
    (Or.inl (by decide))

/-- C6 (confirmed): a pointer-up classified as a tap clears the pending
previous stroke (previousStroke becomes none, previousStrokeEndTime 0); and
from any state with no pending previous stroke, a completing non-tap stroke
is submitted alone — so a stroke completed after a tap is never combined
with one that ended before the tap. -/
theorem C6_tap_clears_pending (grace x y now : ℚ) (s : InputState)
    (hsl : s.isDraggingSlider = false) (hdr : s.isDrawing = true)
    (hne : s.currentStroke ≠ [])
    (htap : s.currentStroke.length ≤ 1 ∨
      sqDist (s.currentStroke.head hne) (s.currentStroke.getLast hne) ≤
        MIN_DRAG_DISTANCE * MIN_DRAG_DISTANCE) :
    ((upState (handlePointerUp grace x y now s)).map InputState.previousStroke =
        some none ∧
     (upState (handlePointerUp grace x y now s)).map
        InputState.previousStrokeEndTime = some 0) ∧
    (∀ (grace2 x2 y2 now2 : ℚ) (t : InputState),
      t.isDraggingSlider = false → t.isDrawing = true → t.previousStroke = none →
      isStrokeGesture t.currentStroke = true →
      upEvents (handlePointerUp grace2 x2 y2 now2 t) =
        some [OutEvent.submit t.currentStroke]) := by
  have hg : isStrokeGesture s.currentStroke = false := by
    rw [← Bool.not_eq_true, isStrokeGesture_true_iff _ hne]
    push_neg
    intro hlen
    rcases htap with h1 | h2
    · omega
    · exact h2
  constructor
  · rw [upReduce_tap grace x y now s hsl hdr hne hg]
    exact ⟨rfl, rfl⟩
  · intro grace2 x2 y2 now2 t htsl htdr htp htstroke
    rw [upEvents, upReduce_single_of_none grace2 x2 y2 now2 t htsl htdr htstroke htp]
    rfl

/-- Witness for C6: the tap in tapDownState clears its pending previous
stroke, and completing the non-tap stroke of firstStrokeState (which has no
pending previous stroke) submits that stroke alone. -/
theorem C6_tap_clears_pending_witness :
    (upState (handlePointerUp 2000 50 50 46 tapDownState)).map
        InputState.previousStroke = some none ∧
    upEvents (handlePointerUp 2000 10 0 100 firstStrokeState) =
      some [OutEvent.submit [⟨0, 0, 1⟩, ⟨10, 0, 1⟩]] := by
  have h := C6_tap_clears_pending 2000 50 50 46 tapDownState rfl rfl (by decide)
    (Or.inl (by decide))
  exact ⟨h.1.1, h.2 2000 10 0 100 firstStrokeState rfl rfl rfl
    (by norm_num [isStrokeGesture, firstStrokeState, sqDist, MIN_DRAG_DISTANCE])⟩

/-- C7 (corrected): a submission processed while the game state is GAME
results in exactly one recognition attempt whose (name, score) result the
handler receives — including failed and low-score attempts — and acceptance
is decided there by comparing the score against recognitionThreshold; a
submission arriving in any other game state triggers no recognition attempt,
so no (name, score) pair is produced for it. -/
theorem C7_recognition_attempt (recognize : List Point → RecoResult)
    (points : List Point) :
    (onSymbolRecognized recognize GameState.game points).attempted =
      some (recognize points) ∧
    ((onSymbolRecognized recognize GameState.game points).accepted = true ↔
      recognitionThreshold ≤ (recognize points).Score) ∧
    (∀ g : GameState, g ≠ GameState.game →
      (onSymbolRecognized recognize g points).attempted = none) := by
  refine ⟨rfl, ?_, ?_⟩
  · simp [onSymbolRecognized]
  · intro g hg
    simp [onSymbolRecognized, hg]

/-- Witness for C7 (amended): with the constant recognizer, a submission in
GAME state is attempted and yields the recognizer's result, while the same
submission in MENU state is not attempted. -/
theorem C7_recognition_attempt_witness :
    (onSymbolRecognized constCircleRecognizer GameState.game
        [⟨0, 0, 1⟩, ⟨10, 0, 1⟩]).attempted = some ⟨"circle", 1⟩ ∧
    (onSymbolRecognized constCircleRecognizer GameState.menu
        [⟨0, 0, 1⟩, ⟨10, 0, 1⟩]).attempted = none := by
  have h := C7_recognition_attempt constCircleRecognizer [⟨0, 0, 1⟩, ⟨10, 0, 1⟩]
  exact ⟨h.1, h.2.2 GameState.menu (by decide)⟩

/-- Counterexample for C7 as stated: the capture machine submits whenever a
non-tap stroke completes on the canvas, whatever the game state (drawing on
the menu background reaches onSymbolRecognized with currentState = MENU); for
such a submission the handler returns before recognizing, so no callback ever
receives a (name, score) pair for it, while the claim requires one for every
submission. -/
theorem C7_attempt_counterexample :
    (onSymbolRecognized constCircleRecognizer GameState.menu
        [⟨0, 0, 1⟩, ⟨10, 0, 1⟩]).attempted = none := rfl

/-- C8 (confirmed, spec-modelled): for a non-empty candidate and a non-empty
template store, recognize returns the name of a stored template whose
rotation-search distance is minimal over the whole store, with score
clampScore (1 - d / halfDiagonal) for that winning distance d; the score
always lies in the unit interval. -/
theorem C8_recognize_best_template_score (dist : List Point → Template → ℚ)
    (halfDiagonal : ℚ) (t : Template) (ts : List Template)
    (candidate : List Point) (hc : candidate ≠ []) :
    ∃ tb, tb ∈ t :: ts ∧
      (recognizeSpec dist halfDiagonal (t :: ts) candidate).Name = tb.name ∧
      (∀ u ∈ t :: ts, dist candidate tb ≤ dist candidate u) ∧
      (recognizeSpec dist halfDiagonal (t :: ts) candidate).Score =
        clampScore (1 - dist candidate tb / halfDiagonal) ∧
      0 ≤ (recognizeSpec dist halfDiagonal (t :: ts) candidate).Score ∧
      (recognizeSpec dist halfDiagonal (t :: ts) candidate).Score ≤ 1 := by
  obtain ⟨hmem, hval, hle, hall⟩ :=
    foldlMin_spec (dist candidate) ts (t, dist candidate t) rfl
  have hr : recognizeSpec dist halfDiagonal (t :: ts) candidate =
      ⟨(ts.foldl
          (fun acc u => if dist candidate u < acc.2 then (u, dist candidate u) else acc)
          (t, dist candidate t)).1.name,
        clampScore (1 - (ts.foldl
          (fun acc u => if dist candidate u < acc.2 then (u, dist candidate u) else acc)
          (t, dist candidate t)).2 / halfDiagonal)⟩ := rfl
  refine ⟨(ts.foldl
      (fun acc u => if dist candidate u < acc.2 then (u, dist candidate u) else acc)
      (t, dist candidate t)).1, ?_, ?_, ?_, ?_, ?_, ?_⟩
  · rcases hmem with h | h
    · exact h ▸ List.mem_cons_self t ts
    · exact List.mem_cons_of_mem t h
  · rw [hr]
  · intro u hu
    rcases List.mem_cons.mp hu with rfl | hu2
    · exact hval ▸ hle
    · exact hval ▸ hall u hu2
  · rw [hr, hval]
  · rw [hr]; exact clampScore_nonneg _
  · rw [hr]; exact clampScore_le_one _

/-- Witness for C8: with the constant distance, a singleton store and the
one-point candidate, the result carries the stored name and a score inside
the unit interval. -/
theorem C8_recognize_best_template_score_witness :
    0 ≤ (recognizeSpec constDist 2 [⟨"circle", [⟨0, 0, 1⟩]⟩] [⟨1, 1, 1⟩]).Score ∧
    (recognizeSpec constDist 2 [⟨"circle", [⟨0, 0, 1⟩]⟩] [⟨1, 1, 1⟩]).Score ≤ 1 ∧
    (recognizeSpec constDist 2 [⟨"circle", [⟨0, 0, 1⟩]⟩] [⟨1, 1, 1⟩]).Name =
      "circle" := by
  obtain ⟨tb, hmem, hname, hmin, hscore, h0, h1⟩ :=
    C8_recognize_best_template_score constDist 2 ⟨"circle", [⟨0, 0, 1⟩]⟩ []
      [⟨1, 1, 1⟩] (by decide)
  refine ⟨h0, h1, ?_⟩
  rw [hname, List.mem_singleton.mp hmem]

/-- C9 (confirmed): the stroke fade time and the multi-stroke grace period
are the same value in every settings state — both derive as
gestureTimingSeconds * 1000 — and every settings update moves them together
to the new gesture-timing value. -/
theorem C9_fade_equals_grace (s : GameSettings) (babyMode : Bool)
    (difficulty specialFreq gestureTiming : ℚ) (gameTime : ℤ) :
    fadeTimeMs s = multiStrokeGracePeriodMs s ∧
    fadeTimeMs s = s.gestureTimingSeconds * 1000 ∧
    fadeTimeMs (updateSettings s babyMode difficulty specialFreq gestureTiming
        gameTime) = gestureTiming * 1000 ∧
    multiStrokeGracePeriodMs (updateSettings s babyMode difficulty specialFreq
        gestureTiming gameTime) = gestureTiming * 1000 :=
  ⟨rfl, rfl, rfl, rfl⟩

/-- C10 (confirmed): a pointer-up while no drawing gesture is in progress
emits neither a tap callback nor a recognition submission, and leaves the
stroke buffer and the pending-previous-stroke state unchanged. -/
theorem C10_up_while_not_drawing_noop (grace x y now : ℚ) (s : InputState)
    (hdr : s.isDrawing = false) :
    upEvents (handlePointerUp grace x y now s) = some [] ∧
    (upState (handlePointerUp grace x y now s)).map InputState.currentStroke =
      some s.currentStroke ∧
    (upState (handlePointerUp grace x y now s)).map InputState.previousStroke =
      some s.previousStroke ∧
    (upState (handlePointerUp grace x y now s)).map
        InputState.previousStrokeEndTime = some s.previousStrokeEndTime := by
  by_cases hsl : s.isDraggingSlider = true
  · simp [handlePointerUp, hsl, upEvents, upState]
  · simp only [Bool.not_eq_true] at hsl
    simp [handlePointerUp, hsl, hdr, upEvents, upState]

/-- Witness for C10: a pointer-up on idleUpState (no drawing in progress)
emits nothing and leaves the buffers untouched. -/
theorem C10_up_while_not_drawing_noop_witness :
    upEvents (handlePointerUp 2000 3 4 5 idleUpState) = some [] ∧
    (upState (handlePointerUp 2000 3 4 5 idleUpState)).map
        InputState.currentStroke = some [] ∧
    (upState (handlePointerUp 2000 3 4 5 idleUpState)).map
        InputState.previousStroke = some (some [⟨0, 0, 1⟩]) ∧
    (upState (handlePointerUp 2000 3 4 5 idleUpState)).map
        InputState.previousStrokeEndTime = some 7 :=
  C10_up_while_not_drawing_noop 2000 3 4 5 idleUpState rfl
